import Mathlib

/-!
Verification of the flaat/floidau OIDC token-authentication and
entitlement-authorization engine against its natural-language specification.

Python strings are modelled as lists of characters, Python dicts as
association lists with first-occurrence lookup and in-place update (Python
dicts have unique keys), Python None as an explicit null value, and Python
exceptions as an explicit error type threaded through Except.  Network calls
and the byte-level base64/JSON primitives are abstracted as function
parameters with arbitrary (possibly failing) behaviour, since no claim
depends on their internals.
-/

set_option autoImplicit false

abbrev Str := List Char

def strL (s : String) : Str := s.toList

/-- Python str.rstrip with a single strip character: removes every trailing
occurrence of that character. -/
def pyRstrip (c : Char) (s : Str) : Str :=
  (s.reverse.dropWhile (fun a => a = c)).reverse

/-- Python dict lookup: the value stored under a key (first occurrence, which
is the only occurrence for dicts built by aset). -/
def alookup {β : Type} : List (Str × β) → Str → Option β
  | [], _ => none
  | (k0, v0) :: rest, k => if k0 = k then some v0 else alookup rest k

/-- Python dict assignment d[k] = v: update the existing entry in place, or
append a new one. -/
def aset {β : Type} : List (Str × β) → Str → β → List (Str × β)
  | [], k, v => [(k, v)]
  | (k0, v0) :: rest, k, v =>
    if k0 = k then (k, v) :: rest else (k0, v0) :: aset rest k v

/-- A JSON-ish Python value; null models Python None. -/
inductive JValue where
  | null
  | boolean (b : Bool)
  | num (n : Int)
  | str (s : Str)
  | list (xs : List JValue)
  | obj (d : List (Str × JValue))

/-- Python identity test "x is None". -/
def isNone : JValue → Bool
  | .null => true
  | _ => false

mutual
/-- Python == on JSON values (structural; dict comparison is
order-insensitive, as Python dict equality is). -/
def JValue.beq : JValue → JValue → Bool
  | .null, .null => true
  | .boolean a, .boolean b => a == b
  | .num a, .num b => a == b
  | .str a, .str b => a == b
  | .list a, .list b => JValue.beqList a b
  | .obj a, .obj b => a.length == b.length && JValue.beqObjIn a b
  | _, _ => false

def JValue.beqList : List JValue → List JValue → Bool
  | [], [] => true
  | a :: arest, b :: brest => JValue.beq a b && JValue.beqList arest brest
  | _, _ => false

def JValue.beqObjIn : List (Str × JValue) → List (Str × JValue) → Bool
  | [], _ => true
  | (k, v) :: rest, b =>
    (match alookup b k with
     | some w => JValue.beq v w
     | none => false) && JValue.beqObjIn rest b
end

instance : BEq JValue := ⟨JValue.beq⟩

/-- Eager Option alternative, used to state lookup-precedence results. -/
def jor {β : Type} : Option β → Option β → Option β
  | some x, _ => some x
  | none, b => b

/-- Lookup of a key in a JSON value when it is an object; none otherwise. -/
def jget (v : JValue) (k : Str) : Option JValue :=
  match v with
  | .obj d => alookup d k
  | _ => none

/-- The keys of an object are pairwise distinct (always true of values that
come from Python dicts; trivial for non-objects). -/
def keysNodup (v : JValue) : Prop :=
  match v with
  | .obj d => (d.map Prod.fst).Nodup
  | _ => True

instance : (v : JValue) → Decidable (keysNodup v)
  | .null => .isTrue trivial
  | .boolean _ => .isTrue trivial
  | .num _ => .isTrue trivial
  | .str _ => .isTrue trivial
  | .list _ => .isTrue trivial
  | .obj d => inferInstanceAs (Decidable ((d.map Prod.fst).Nodup))

/-- One iteration of floidau.merge_tokens: copy every key of the entry into
the supertoken; a non-dict entry (including None) raises AttributeError at
entry.keys(), which the source swallows. -/
def merge_entry (supertoken : List (Str × JValue)) (entry : JValue) :
    List (Str × JValue) :=
  match entry with
  | .obj d => d.foldl (fun acc kv => aset acc kv.1 kv.2) supertoken
  | _ => supertoken

/-- floidau.merge_tokens: shallow key-by-key merge of a list of (possibly
absent) token dicts; an empty result is collapsed to None. -/
def merge_tokens (tokenlist : List JValue) : JValue :=
  match tokenlist.foldl merge_entry [] with
  | [] => .null
  | d => .obj d

/-! ## String splitting, as Python str.split -/

/-- Python s.split(sep) for a single-character separator: splits at every
occurrence; the empty string yields one empty part. -/
def splitChar (c : Char) : Str → List Str
  | [] => [[]]
  | a :: rest =>
    if a = c then [] :: splitChar c rest
    else
      match splitChar c rest with
      | [] => [[a]]
      | h :: t => (a :: h) :: t

/-- Left inverse of splitChar: re-join the parts with the separator. -/
def joinChar (c : Char) : List Str → Str
  | [] => []
  | [x] => x
  | x :: y :: rest => x ++ c :: joinChar c (y :: rest)

/-- Worker for multi-character split: scan the string; when the separator
occurs at the current position, close the current part and skip the
remaining separator characters (the skip counter consumes them one by
one, keeping the recursion structural). -/
def splitSeqGo (sep : Str) : Str → Nat → List Str
  | [], _ => [[]]
  | _ :: rest, k + 1 => splitSeqGo sep rest k
  | a :: rest, 0 =>
    if sep.isPrefixOf (a :: rest) then
      [] :: splitSeqGo sep rest (sep.length - 1)
    else
      match splitSeqGo sep rest 0 with
      | [] => [[a]]
      | h :: t => (a :: h) :: t

/-- Python s.split(sep) for a multi-character separator: splits at the
leftmost non-overlapping occurrences, like CPython. -/
def splitSeq (sep : Str) (s : Str) : List Str := splitSeqGo sep s 0

/-! ## Error taxonomy

The exception classes of flaat.exceptions are not under src; the
constructors below mirror the names used at the raise sites in src
(FlaatForbidden, FlaatUnauthorized, FlaatException) plus
FlaatUnauthenticated, which src/flaat/aio imports from the same module.
Messages are modelled structurally, one constructor per format string. -/

inductive PyErr where
  | keyError
  | valueError
  | attributeError
  | typeError
deriving DecidableEq

inductive EMsg where
  | issuerNotTrusted (iss : Str)
  | issuerConfigNotFound
  | tokenExpired
  | userInfoNotFound
  | matchedTooFew (found : Nat) (needed : Int)
  | invalidMatchArg
deriving DecidableEq

inductive FlaatError where
  | forbidden (m : EMsg)
  | unauthorized (m : EMsg)
  | unauthenticated (m : EMsg)
  | exception (m : EMsg)
  | pyError (e : PyErr)
deriving DecidableEq

/-! ## Access tokens (floidau.get_accesstoken_info and friends) -/

abbrev Bytes := List Nat

/-- The byte-level primitives used on tokens: base64url decoding and JSON
parsing.  Both may fail on arbitrary inputs (ValueError / binascii.Error /
json.JSONDecodeError); their internals are irrelevant to every claim, so
they are abstracted as arbitrary fallible functions. -/
structure Py where
  b64 : Str → Except Unit Bytes
  jloadsBytes : Bytes → Except Unit JValue
  jloads : Str → Except Unit JValue

/-- The dict literal built by floidau.get_accesstoken_info: exactly the keys
header, body and signature. -/
structure AccessTokenInfo where
  header : JValue
  body : JValue
  signature : Str

/-- floidau.get_accesstoken_info: split the token on dots into exactly three
segments, base64url-decode and JSON-parse the first two; any failure
(including a wrong number of segments) is caught by the bare except and
becomes None. -/
def get_accesstoken_info (py : Py) (access_token : Str) : Option AccessTokenInfo :=
  match splitChar '.' access_token with
  | [header_enc, body_enc, signature_enc] =>
    (match py.b64 header_enc with
     | .error _ => none
     | .ok hb =>
       match py.jloadsBytes hb with
       | .error _ => none
       | .ok header =>
         match py.b64 body_enc with
         | .error _ => none
         | .ok bb =>
           match py.jloadsBytes bb with
           | .error _ => none
           | .ok body => some ⟨header, body, signature_enc⟩)
  | _ => none

/-- floidau.get_issuer_from_accesstoken_info: get_accesstoken_info(at) then
subscript with body and iss.  TypeError and ValueError are caught and give
None; a KeyError (body dict without an iss key) is NOT caught and escapes. -/
def get_issuer_from_accesstoken_info (py : Py) (access_token : Str) :
    Except FlaatError JValue :=
  match get_accesstoken_info py access_token with
  | none => .ok .null
  | some info =>
    match info.body with
    | .obj d =>
      (match alookup d (strL "iss") with
       | some v => .ok v
       | none => .error (.pyError .keyError))
    | _ => .ok .null

/-- Modelled from the spec: flaat.tokentools.get_timeleft is not under src.
Spec section 3: time_left = body.exp - now; None when there is no token info
or the body carries no numeric exp claim. -/
def get_timeleft (accesstoken_info : Option AccessTokenInfo) (now : Int) :
    Option Int :=
  match accesstoken_info with
  | none => none
  | some info =>
    match info.body with
    | .obj d =>
      (match alookup d (strL "exp") with
       | some (.num e) => some (e - now)
       | _ => none)
    | _ => none

/-- The token-info dict as a Python value, for the final merge in
BaseFlaat.get_all_info_by_at. -/
def atInfoDict (i : AccessTokenInfo) : JValue :=
  .obj [(strL "header", i.header), (strL "body", i.body),
        (strL "signature", .str i.signature)]

/-- BaseFlaat.get_info_thats_in_at: None for a falsy (empty) token. -/
def get_info_thats_in_at (py : Py) (access_token : Str) : Option AccessTokenInfo :=
  match access_token with
  | [] => none
  | _ => get_accesstoken_info py access_token

/-- BaseFlaat.get_all_info_by_at.  The userinfo and introspection fetches go
through the network; their outcomes (a value, or a raised FlaatError) are
parameters.  After both fetches, an expired token raises FlaatUnauthorized;
then a missing userinfo returns None, else the shallow merge of token body
info, userinfo and introspection info. -/
def get_all_info_by_at (py : Py) (fetch_userinfo : Except FlaatError JValue)
    (fetch_introspection : Except FlaatError JValue) (now : Int)
    (access_token : Str) : Except FlaatError JValue :=
  let accesstoken_info := get_info_thats_in_at py access_token
  match fetch_userinfo with
  | .error e => .error e
  | .ok user_info =>
    match fetch_introspection with
    | .error e => .error e
    | .ok introspection_info =>
      let expiry_check : Except FlaatError Unit :=
        match accesstoken_info with
        | none => .ok ()
        | some _ =>
          match get_timeleft accesstoken_info now with
          | some timeleft =>
            if timeleft < 0 then .error (.unauthorized .tokenExpired) else .ok ()
          | none => .ok ()
      match expiry_check with
      | .error e => .error e
      | .ok _ =>
        if isNone user_info then .ok .null
        else
          .ok (merge_tokens
            [(match accesstoken_info with
              | some i => atInfoDict i
              | none => .null),
             user_info, introspection_info])

/-! ## Issuer resolution (BaseFlaat._find_issuer_config_everywhere) -/

/-- The configuration fields of FlaatConfig read during issuer resolution. -/
structure FlaatConfig where
  trusted_op_list : List Str
  iss : Str
  op_hint : Str
  trusted_op_file : Str
  ops_that_support_jwt : List Str

/-- FlaatConfig.set_trusted_OP_list: every entry is stored with trailing
slashes stripped. -/
def set_trusted_OP_list (cfg : FlaatConfig) (l : List Str) : FlaatConfig :=
  { cfg with trusted_op_list := l.map (pyRstrip '/') }

/-- FlaatConfig.set_trusted_OP: the single issuer is stored with trailing
slashes stripped. -/
def set_trusted_OP (cfg : FlaatConfig) (s : Str) : FlaatConfig :=
  { cfg with iss := pyRstrip '/' s }

/-- The mutable caches of BaseFlaat; the issuer-config payload type is
opaque. -/
structure FlaatState (γ : Type) where
  issuer_config_cache : List (Str × γ)
  accesstoken_issuer_cache : List (Str × Str)

/-- The flaat.issuertools lookups used by issuer resolution.  The module is
not under src (floidau carries same-named functions); all of them go through
the network, so their outcomes are parameters of the model.  Payloads are
opaque; list/file searches may return lists containing None entries, as the
floidau versions do. -/
structure Network (γ : Type) where
  find_issuer_config_in_at : Str → Option γ
  find_issuer_config_in_string : Str → Option γ
  find_issuer_config_in_list : List Str → Str → List Str → Option (List (Option γ))
  find_issuer_config_in_file : Str → Str → List Str → Option (List (Option γ))

/-- Modelled from the spec: flaat.caches.Issuer_config_cache.get is not
under src.  Spec section 4.1: normalized lookup (issuer keys are compared
with the trailing slash stripped); TTL expiry is not modelled. -/
def issuer_config_cache_get {γ : Type} (cache : List (Str × γ)) (issuer : Str) :
    Option γ :=
  alookup cache (pyRstrip '/' issuer)

/-- BaseFlaat._find_issuer_config_everywhere.
Step 0: the token cache.  Step 1: the iss embedded in the token; if present
it must be in the trusted buffer (the stored trusted_op_list when non-empty,
plus the configured single issuer, which defaults to the empty string), else
FlaatForbidden is raised; a non-string iss claim makes rstrip raise
AttributeError.  Then the well-known lookup from the token, the configured
single issuer, the trusted list and the issuer file are tried in order. -/
def find_issuer_config_everywhere {γ : Type} (cfg : FlaatConfig)
    (st : FlaatState γ) (net : Network γ) (py : Py) (access_token : Str) :
    Except FlaatError (List (Option γ)) :=
  match alookup st.accesstoken_issuer_cache access_token with
  | some issuer => .ok [issuer_config_cache_get st.issuer_config_cache issuer]
  | none =>
    match get_issuer_from_accesstoken_info py access_token with
    | .error e => .error e
    | .ok at_iss =>
      let trust_check : Except FlaatError Unit :=
        match at_iss with
        | .null => .ok ()
        | .str s =>
          let trusted_op_list_buf :=
            (if 0 < cfg.trusted_op_list.length then cfg.trusted_op_list else [])
              ++ [cfg.iss]
          if pyRstrip '/' s ∈ trusted_op_list_buf then .ok ()
          else .error (.forbidden (.issuerNotTrusted s))
        | _ => .error (.pyError .attributeError)
      match trust_check with
      | .error e => .error e
      | .ok _ =>
        match net.find_issuer_config_in_at access_token with
        | some c => .ok [some c]
        | none =>
          match net.find_issuer_config_in_string cfg.iss with
          | some c => .ok [some c]
          | none =>
            match net.find_issuer_config_in_list cfg.trusted_op_list cfg.op_hint
                cfg.ops_that_support_jwt with
            | some l => .ok l
            | none =>
              match net.find_issuer_config_in_file cfg.trusted_op_file cfg.op_hint
                  cfg.ops_that_support_jwt with
              | some l => .ok l
              | none => .error (.forbidden .issuerConfigNotFound)

/-- Whether a resolution outcome is a raised Unauthenticated-kind error. -/
def failsUnauthenticated {γ : Type} (r : Except FlaatError (List (Option γ))) :
    Bool :=
  match r with
  | .error (.unauthenticated _) => true
  | _ => false

/-! ## The AARC-G002 entitlement matcher (floidau) -/

/-- floidau.aarc_g002_split: split on the literal token ":group:" (exactly
one occurrence required, else the unpacking raises ValueError, which the
matcher does not catch); then split off an optional authority after "#"
(a failed two-way unpack there is caught: no authority, hierarchy = whole
remainder). -/
def aarc_g002_split (groupspec : Str) : Except PyErr (Str × Str × Option Str) :=
  match splitSeq (strL ":group:") groupspec with
  | [namespace0, tmp] =>
    (match splitChar '#' tmp with
     | [group_hierarchy, authority] => .ok (namespace0, group_hierarchy, some authority)
     | _ => .ok (namespace0, tmp, none))
  | _ => .error .valueError

/-- floidau.aarc_g002_split_roles: split off an optional role after the
literal token ":role=" (a failed two-way unpack is caught: no role). -/
def aarc_g002_split_roles (groupspec : Str) : Str × Option Str :=
  match splitSeq (strL ":role=") groupspec with
  | [group, role] => (group, some role)
  | _ => (groupspec, none)

/-- The indexed loop of floidau.aarc_g002_matcher: compare the required
group path against the actual one position by position; running out of
actual components (IndexError) means no match. -/
def tree_match_loop : List Str → List Str → Bool
  | [], _ => true
  | _ :: _, [] => false
  | r :: rs, a :: arest => if a = r then tree_match_loop rs arest else false

/-- The decision core of floidau.aarc_g002_matcher, after both entitlements
have been split into namespace and group+role (authorities are ignored by
the source). -/
def aarc_core (req_namespace req_group_role act_namespace act_group_role : Str) :
    Bool :=
  if act_namespace ≠ req_namespace then false
  else if act_group_role = req_group_role then true
  else
    let act_gr := aarc_g002_split_roles act_group_role
    let req_gr := aarc_g002_split_roles req_group_role
    if act_gr.1 = req_gr.1 then
      match req_gr.2 with
      | none => true
      | some req_role =>
        match act_gr.2 with
        | none => false
        | some act_role => act_role = req_role
    else
      tree_match_loop (splitChar ':' req_gr.1) (splitChar ':' act_gr.1)

/-- floidau.aarc_g002_matcher: split both entitlements (the actual one
first, as the source does) and decide; an unparsable entitlement raises. -/
def aarc_g002_matcher (required_group actual_group : Str) : Except PyErr Bool :=
  match aarc_g002_split actual_group with
  | .error e => .error e
  | .ok (act_namespace, act_group_role, _) =>
    match aarc_g002_split required_group with
    | .error e => .error e
    | .ok (req_namespace, req_group_role, _) =>
      .ok (aarc_core req_namespace req_group_role act_namespace act_group_role)

/-- Modelled from the spec's wording (section 4.5, matching steps 1-4), for
refinement comparison with aarc_core: namespaces must be equal; equal
group+role strings match; otherwise the required group path must be a
component-wise ancestor-or-equal of the actual one, and the role is compared
only when the paths are equal at full depth (no required role accepts
anything; a required role demands the identical role). -/
def spec_aarc_core (req_namespace req_group_role act_namespace act_group_role : Str) :
    Bool :=
  if req_namespace ≠ act_namespace then false
  else if req_group_role = act_group_role then true
  else
    let req_gr := aarc_g002_split_roles req_group_role
    let act_gr := aarc_g002_split_roles act_group_role
    let req_path := splitChar ':' req_gr.1
    let act_path := splitChar ':' act_gr.1
    if ¬ (req_path.isPrefixOf act_path) then false
    else if req_path = act_path then
      (match req_gr.2 with
       | none => true
       | some r => act_gr.2 = some r)
    else true

/-- Modelled from the spec's wording: the whole matcher according to
section 4.5, sharing the source's parsing of entitlement strings. -/
def spec_aarc_matches (required_group actual_group : Str) : Option Bool :=
  match aarc_g002_split required_group, aarc_g002_split actual_group with
  | .ok (req_namespace, req_group_role, _), .ok (act_namespace, act_group_role, _) =>
    some (spec_aarc_core req_namespace req_group_role act_namespace act_group_role)
  | _, _ => none

/-! ## The requirement engine (flaat.requirements) -/

/-- The ambient process environment and JSON parser used by
check_environment_for_override. -/
structure EnvCtx where
  getenv : Str → Option Str
  jloads : Str → Except Unit JValue

/-- flaat.requirements.check_environment_for_override: JSON-decode the value
of the environment variable; an unset variable or a decode error yields
None. -/
def check_environment_for_override (env : EnvCtx) (env_key : Str) : JValue :=
  match env.getenv env_key with
  | none => .null
  | some env_val =>
    match env.jloads env_val with
    | .ok v => v
    | .error _ => .null

/-- The identity sources consulted by claim lookup. -/
structure UserInfos where
  user_info : JValue
  access_token_body : JValue
  subject : Str
  issuer : Str

/-- Modelled from the spec: the UserInfos.get used by
HasClaim.is_satisfied_by is not under src.  Spec sections 3 and 4.4: look
the claim name up in the sources in the default search precedence, userinfo
before the access-token body; an absent claim yields the lookup default
None. -/
def UserInfos.get (u : UserInfos) (claim : Str) : JValue :=
  match jget u.user_info claim with
  | some v => v
  | none =>
    match jget u.access_token_body claim with
    | some v => v
    | none => .null

/-- Diagnostic messages, one constructor per format string in
flaat.requirements. -/
inductive Message where
  | methodNotOverwritten
  | alwaysSatisfied
  | unsatisfiableReq
  | evaluationOf (name : Str)
  | allSatisfied
  | unsatisfiedSub (failed : List Message)
  | noSubSatisfied (failed : List Message)
  | nOfSatisfied (found : Nat) (needed : Int)
  | nOfUnsatisfied (found : Nat) (needed : Int) (failed : List Message)
  | claimNotAvailable (claim : Str)
  | noMatchForClaim (value : JValue) (claim : Str)
  | matchForClaim (value : JValue) (claim : Str) (matched : JValue)

/-- flaat.requirements.CheckResult. -/
structure CheckResult where
  is_satisfied : Bool
  message : Message

/-- The requirement tree.  A hasClaim node carries the state computed by
HasClaim.__init__ (use_parse and the stored value) together with the
subclass strategy, the overridable _parse and _matches methods (the base
class uses the identity parse and Python equality). -/
inductive Requirement where
  | satisfied
  | unsatisfiable
  | isTrue (name : Str) (f : UserInfos → Bool)
  | hasClaim (use_parse : Bool) (value : JValue) (pparse : JValue → JValue)
      (pmatches : JValue → JValue → Bool) (claim : Str)
  | allOf (reqs : List Requirement)
  | oneOf (reqs : List Requirement)
  | nOf (n : Int) (reqs : List Requirement)

/-- HasClaim.__init__: try parsing the required value with use_parse on; if
that gives None, revert to storing the raw value and plain equality. -/
def mkHasClaim (pparse : JValue → JValue) (pmatches : JValue → JValue → Bool)
    (required : JValue) (claim : Str) : Requirement :=
  let v := pparse required
  if isNone v then .hasClaim false required pparse pmatches claim
  else .hasClaim true v pparse pmatches claim

/-- HasClaim.parse: the subclass _parse when use_parse is on, else the raw
value. -/
def hcParse (use_parse : Bool) (pparse : JValue → JValue) (raw : JValue) : JValue :=
  if use_parse then pparse raw else raw

/-- HasClaim.matches: the subclass _matches when use_parse is on, else
Python equality. -/
def hcMatches (use_parse : Bool) (pmatches : JValue → JValue → Bool)
    (required available : JValue) : Bool :=
  if use_parse then pmatches required available else required == available

/-- The matching loop of HasClaim.is_satisfied_by: the first entry of the
claim list that matches the stored value (the loop breaks on a match). -/
def hasClaim_first_match (use_parse : Bool) (value : JValue)
    (pparse : JValue → JValue) (pmatches : JValue → JValue → Bool) :
    List JValue → Option JValue
  | [] => none
  | val :: rest =>
    if hcMatches use_parse pmatches value (hcParse use_parse pparse val) then some val
    else hasClaim_first_match use_parse value pparse pmatches rest

/-- HasClaim.is_satisfied_by: the override list from the environment
replaces the claim lookup when present; a None value fails as unavailable; a
non-list value never matches; otherwise the first matching entry decides. -/
def hasClaim_eval (env : EnvCtx) (u : UserInfos) (use_parse : Bool)
    (value0 : JValue) (pparse : JValue → JValue)
    (pmatches : JValue → JValue → Bool) (claim : Str) : CheckResult :=
  let override_claim :=
    check_environment_for_override env
      (strL "DISABLE_AUTHENTICATION_AND_ASSUME_ENTITLEMENTS")
  let value := if isNone override_claim then u.get claim else override_claim
  if isNone value then ⟨false, .claimNotAvailable claim⟩
  else
    let matched :=
      match value with
      | .list xs => hasClaim_first_match use_parse value0 pparse pmatches xs
      | _ => none
    match matched with
    | none => ⟨false, .noMatchForClaim value0 claim⟩
    | some mv => ⟨true, .matchForClaim value0 claim mv⟩

mutual
/-- Requirement.is_satisfied_by for every node.  The AllOf and OneOf bodies
are the same accumulation loop over all children (as in the source, where
OneOf's loop also clears its satisfied flag on any failing child); N_Of
counts satisfied children and keeps the failing messages. -/
def is_satisfied_by (env : EnvCtx) (u : UserInfos) : Requirement → CheckResult
  | .satisfied => ⟨true, .alwaysSatisfied⟩
  | .unsatisfiable => ⟨false, .unsatisfiableReq⟩
  | .isTrue name f => ⟨f u, .evaluationOf name⟩
  | .hasClaim use_parse value pparse pmatches claim =>
    hasClaim_eval env u use_parse value pparse pmatches claim
  | .allOf reqs =>
    let st := (eval_list env u reqs).foldl
      (fun acc r =>
        if !r.is_satisfied then (false, acc.2 ++ [r.message]) else acc)
      (true, ([] : List Message))
    ⟨st.1, if st.1 then .allSatisfied else .unsatisfiedSub st.2⟩
  | .oneOf reqs =>
    let st := (eval_list env u reqs).foldl
      (fun acc r =>
        if !r.is_satisfied then (false, acc.2 ++ [r.message]) else acc)
      (true, ([] : List Message))
    ⟨st.1, if st.1 then .allSatisfied else .noSubSatisfied st.2⟩
  | .nOf n reqs =>
    let st := (eval_list env u reqs).foldl
      (fun acc r =>
        if !r.is_satisfied then (acc.1 ++ [r.message], acc.2) else (acc.1, acc.2 + 1))
      (([] : List Message), (0 : Nat))
    if n ≤ (st.2 : Int) then ⟨true, .nOfSatisfied st.2 n⟩
    else ⟨false, .nOfUnsatisfied st.2 n st.1⟩

/-- Evaluate a list of child requirements in order. -/
def eval_list (env : EnvCtx) (u : UserInfos) : List Requirement → List CheckResult
  | [] => []
  | r :: rs => is_satisfied_by env u r :: eval_list env u rs
end

/-- The match argument of the claim-requirement builders: the strings all
and one, an integer, or anything else. -/
inductive MatchSpec where
  | all
  | one
  | int (k : Int)
  | other

/-- flaat.requirements.match_to_meta_requirement. -/
def match_to_meta_requirement (m : MatchSpec) : Except FlaatError Requirement :=
  match m with
  | .all => .ok (.allOf [])
  | .one => .ok (.oneOf [])
  | .int k => .ok (.nOf k [])
  | .other => .error (.exception .invalidMatchArg)

/-- MetaRequirement.add_requirement (only ever called on meta nodes). -/
def add_requirement (r : Requirement) (c : Requirement) : Requirement :=
  match r with
  | .allOf rs => .allOf (rs ++ [c])
  | .oneOf rs => .oneOf (rs ++ [c])
  | .nOf n rs => .nOf n (rs ++ [c])
  | x => x

/-- flaat.requirements.get_claim_requirement: a list of required values
becomes a meta requirement over one claim leaf per value; a single value
becomes one leaf.  The claim_requirement_class is given by its strategy. -/
def get_claim_requirement (pparse : JValue → JValue)
    (pmatches : JValue → JValue → Bool) (required : JValue) (claim : Str)
    (m : MatchSpec) : Except FlaatError Requirement :=
  match required with
  | .list rs =>
    (match match_to_meta_requirement m with
     | .error e => .error e
     | .ok meta =>
       .ok (rs.foldl (fun acc r => add_requirement acc (mkHasClaim pparse pmatches r claim)) meta))
  | _ => .ok (mkHasClaim pparse pmatches required claim)

/-- BaseFlaat._determine_number_of_required_matches: all means every
required value, one means 1, an integer is clamped down to the number of
required values; anything else raises FlaatException. -/
def determine_number_of_required_matches (m : MatchSpec)
    (req_group_list : List JValue) : Except FlaatError Int :=
  match m with
  | .all => .ok req_group_list.length
  | .one => .ok 1
  | .int k =>
    .ok (if (req_group_list.length : Int) < k then (req_group_list.length : Int) else k)
  | .other => .error (.exception .invalidMatchArg)

/-- The nested counting loop of BaseFlaat._required_auth_func: one count per
comparator-matching (required, available) PAIR. -/
def count_pair_matches (comparator : JValue → JValue → Bool)
    (req_parsed avail_parsed : List JValue) : Nat :=
  req_parsed.foldl
    (fun acc r =>
      avail_parsed.foldl (fun acc2 av => if comparator r av then acc2 + 1 else acc2) acc)
    0

/-- The decision core of BaseFlaat._required_auth_func, after requests,
claim extraction and parsing: FlaatForbidden unless the pair count reaches
the required number of matches. -/
def required_auth_core (comparator : JValue → JValue → Bool) (m : MatchSpec)
    (req_parsed avail_parsed : List JValue) : Except FlaatError Unit :=
  match determine_number_of_required_matches m req_parsed with
  | .error e => .error e
  | .ok required_matches =>
    let matches_found := count_pair_matches comparator req_parsed avail_parsed
    if (matches_found : Int) < required_matches then
      .error (.forbidden (.matchedTooFew matches_found required_matches))
    else .ok ()

/-! ## Concrete instances used by witnesses and counterexamples -/

/-- An empty process environment (no override variable set). -/
def exEnvNone : EnvCtx := ⟨fun _ => none, fun _ => .error ()⟩

/-- An environment whose override variable is set to a JSON list holding one
entitlement string. -/
def exEnvOverride : EnvCtx :=
  ⟨fun k =>
     if k = strL "DISABLE_AUTHENTICATION_AND_ASSUME_ENTITLEMENTS" then
       some (strL "[\"ns:group:x\"]")
     else none,
   fun _ => .ok (.list [.str (strL "ns:group:x")])⟩

/-- A user with no identity information at all. -/
def exUserEmpty : UserInfos := ⟨.null, .null, [], []⟩

/-- A user whose userinfo carries the claim grp = ["a"]. -/
def exUserGrpA : UserInfos :=
  ⟨.obj [(strL "grp", .list [.str (strL "a")])], .null, [], []⟩

/-- Token primitives under which the fixed token decodes to a body whose iss
claim is an untrusted issuer. -/
def exPyEvilIss : Py :=
  ⟨fun _ => .ok [],
   fun _ => .ok (.obj [(strL "iss", .str (strL "https://evil.example/"))]),
   fun _ => .error ()⟩

/-- Token primitives under which the fixed token decodes to a body whose exp
claim is 0. -/
def exPyExpZero : Py :=
  ⟨fun _ => .ok [],
   fun _ => .ok (.obj [(strL "exp", .num 0)]),
   fun _ => .error ()⟩

/-- A three-segment token string. -/
def exTok : Str := strL "h.b.s"

/-- A configuration trusting exactly https://op.example (stored normalized,
as set_trusted_OP_list stores it), with the single-issuer field at its
default empty value. -/
def exCfgTrust : FlaatConfig :=
  { trusted_op_list := [strL "https://op.example"], iss := [],
    op_hint := [], trusted_op_file := [], ops_that_support_jwt := [] }

/-- Empty caches: the token has never been seen. -/
def exStEmpty : FlaatState Unit := ⟨[], []⟩

/-- A network on which every issuer is reachable and every discovery lookup
succeeds. -/
def exNetReachable : Network Unit :=
  ⟨fun _ => some (), fun _ => some (),
   fun _ _ _ => some [some ()], fun _ _ _ => some [some ()]⟩

/-! # Theorems -/

/-! ## Association lists and the shallow merge -/

theorem jor_none {β : Type} (a : Option β) : jor a none = a := by
  cases a <;> rfl

theorem alookup_aset {β : Type} (d : List (Str × β)) (k : Str) (v : β) (k2 : Str) :
    alookup (aset d k v) k2 = if k = k2 then some v else alookup d k2 := by
  induction d with
  | nil =>
    by_cases h : k = k2 <;> simp [aset, alookup, h]
  | cons kv rest ih =>
    obtain ⟨k0, v0⟩ := kv
    simp only [aset]
    by_cases h0 : k0 = k
    · subst h0
      by_cases h : k0 = k2 <;> simp [alookup, h]
    · rw [if_neg h0]
      by_cases h2 : k0 = k2
      · subst h2
        rw [if_neg (fun hh => h0 hh.symm)]
        simp [alookup]
      · simp [alookup, h2, ih]

theorem foldl_aset_lookup (e : List (Str × JValue)) (s : List (Str × JValue))
    (k : Str) (hnd : (e.map Prod.fst).Nodup) :
    alookup (e.foldl (fun acc kv => aset acc kv.1 kv.2) s) k =
      jor (alookup e k) (alookup s k) := by
  induction e generalizing s with
  | nil => simp [alookup, jor]
  | cons kv rest ih =>
    obtain ⟨k0, v0⟩ := kv
    simp only [List.map_cons, List.nodup_cons] at hnd
    simp only [List.foldl_cons]
    rw [ih _ hnd.2]
    by_cases h : k0 = k
    · subst h
      have hrest : alookup rest k0 = none := by
        clear ih
        induction rest with
        | nil => simp [alookup]
        | cons kv2 rest2 ih2 =>
          obtain ⟨k2, v2⟩ := kv2
          simp only [List.map_cons, List.mem_cons, not_or] at hnd
          have hne : k2 = k0 → False := fun hh => hnd.1.1 hh.symm
          simp only [alookup, if_neg (fun hh => hne hh)]
          exact ih2 ⟨fun hm => hnd.1.2 hm, hnd.2.of_cons⟩
      simp [alookup, hrest, alookup_aset, jor]
    · simp [alookup, h, alookup_aset, jor]

theorem merge_entry_lookup (v : JValue) (s : List (Str × JValue)) (k : Str)
    (hnd : keysNodup v) :
    alookup (merge_entry s v) k = jor (jget v k) (alookup s k) := by
  cases v with
  | obj d => exact foldl_aset_lookup d s k hnd
  | null => simp [merge_entry, jget, jor]
  | boolean b => simp [merge_entry, jget, jor]
  | num n => simp [merge_entry, jget, jor]
  | str t => simp [merge_entry, jget, jor]
  | list xs => simp [merge_entry, jget, jor]

theorem jget_of_collapse (d : List (Str × JValue)) (k : Str) :
    jget (match d with | [] => JValue.null | d0 => JValue.obj d0) k = alookup d k := by
  cases d <;> simp [jget, alookup]

/-- Claim C5: merge over the three claim maps is a shallow key-by-key map
merge in which the later sources (userinfo, then introspection) overwrite
the earlier ones, and the merge of three absent sources is None. -/
theorem merge_tokens_shallow_merge (a u i : JValue) (k : Str)
    (ha : keysNodup a) (hu : keysNodup u) (hi : keysNodup i) :
    jget (merge_tokens [a, u, i]) k =
      jor (jget i k) (jor (jget u k) (jget a k))
    ∧ merge_tokens [JValue.null, JValue.null, JValue.null] = JValue.null := by
  constructor
  · show jget (match [a, u, i].foldl merge_entry [] with
      | [] => JValue.null | d0 => JValue.obj d0) k = _
    rw [jget_of_collapse]
    simp only [List.foldl_cons, List.foldl_nil]
    rw [merge_entry_lookup i _ k hi, merge_entry_lookup u _ k hu,
      merge_entry_lookup a _ k ha]
    simp [alookup, jor_none]
  · rfl

/-- Witness for C5 at the spec's own example: accessTokenClaims={"a":1},
userInfoClaims={"a":2,"b":3}, introspectionClaims={"b":4} merge to exactly
{"a":2,"b":4}. -/
theorem merge_tokens_shallow_merge_witness :
    jget (merge_tokens [JValue.obj [(strL "a", .num 1)],
        JValue.obj [(strL "a", .num 2), (strL "b", .num 3)],
        JValue.obj [(strL "b", .num 4)]]) (strL "a") = some (.num 2)
    ∧ jget (merge_tokens [JValue.obj [(strL "a", .num 1)],
        JValue.obj [(strL "a", .num 2), (strL "b", .num 3)],
        JValue.obj [(strL "b", .num 4)]]) (strL "b") = some (.num 4)
    ∧ merge_tokens [JValue.obj [(strL "a", .num 1)],
        JValue.obj [(strL "a", .num 2), (strL "b", .num 3)],
        JValue.obj [(strL "b", .num 4)]] =
      JValue.obj [(strL "a", .num 2), (strL "b", .num 4)] := by
  refine ⟨?_, ?_, rfl⟩
  · have h := (merge_tokens_shallow_merge (JValue.obj [(strL "a", .num 1)])
      (JValue.obj [(strL "a", .num 2), (strL "b", .num 3)])
      (JValue.obj [(strL "b", .num 4)]) (strL "a")
      (by decide) (by decide) (by decide)).1
    exact h.trans rfl
  · have h := (merge_tokens_shallow_merge (JValue.obj [(strL "a", .num 1)])
      (JValue.obj [(strL "a", .num 2), (strL "b", .num 3)])
      (JValue.obj [(strL "b", .num 4)]) (strL "b")
      (by decide) (by decide) (by decide)).1
    exact h.trans rfl


/-! ## The token decoder -/

/-- Claim C9: for every input string and every behaviour of the base64url
and JSON primitives, get_accesstoken_info either returns None or returns the
record with header, body and signature fields built from the three
dot-separated segments; being a total function into Option, it never
raises. -/
theorem get_accesstoken_info_total_shape (py : Py) (s : Str) :
    get_accesstoken_info py s = none ∨
    ∃ h b sig hb bb header body,
      splitChar '.' s = [h, b, sig] ∧ py.b64 h = .ok hb ∧
      py.jloadsBytes hb = .ok header ∧ py.b64 b = .ok bb ∧
      py.jloadsBytes bb = .ok body ∧
      get_accesstoken_info py s = some ⟨header, body, sig⟩ := by
  unfold get_accesstoken_info
  split
  case h_2 => exact Or.inl rfl
  case h_1 h b sig hsp =>
    cases hb64h : py.b64 h with
    | error e => simp [hb64h]
    | ok hb =>
      cases hjh : py.jloadsBytes hb with
      | error e => simp [hb64h, hjh]
      | ok header =>
        cases hb64b : py.b64 b with
        | error e => simp [hb64h, hjh, hb64b]
        | ok bb =>
          cases hjb : py.jloadsBytes bb with
          | error e => simp [hb64h, hjh, hb64b, hjb]
          | ok body =>
            refine Or.inr ⟨h, b, sig, hb, bb, header, body, hsp, hb64h, hjh, hb64b, hjb, ?_⟩
            simp [hb64h, hjh, hb64b, hjb]

/-! ## The required-matches clamp -/

/-- Claim C10: an integer match argument strictly greater than the number of
required values is clamped down to that number, making it behave exactly
like the match argument all. -/
theorem determine_matches_clamped_to_all (k : Int) (l : List JValue)
    (h : (l.length : Int) < k) :
    determine_number_of_required_matches (.int k) l = .ok (l.length : Int)
    ∧ determine_number_of_required_matches (.int k) l =
        determine_number_of_required_matches .all l := by
  constructor
  · simp [determine_number_of_required_matches, if_pos h]
  · simp [determine_number_of_required_matches, if_pos h]

/-- Witness for C10: match = 5 against two required values is clamped to 2
and agrees with all. -/
theorem determine_matches_clamped_to_all_witness :
    (([JValue.num 1, JValue.num 2].length : Int) < 5)
    ∧ determine_number_of_required_matches (.int 5) [JValue.num 1, JValue.num 2] =
        determine_number_of_required_matches .all [JValue.num 1, JValue.num 2] :=
  ⟨by decide,
   (determine_matches_clamped_to_all 5 [JValue.num 1, JValue.num 2] (by decide)).2⟩

/-! ## Token expiry in get_all_info_by_at -/

/-- Claim C6: a token whose body carries an exp claim in the past makes
get_all_info_by_at raise FlaatUnauthorized even when both the userinfo fetch
and the introspection fetch succeed. -/
theorem expired_token_unauthorized (py : Py) (ui iv : JValue) (now : Int)
    (access_token : Str) (info : AccessTokenInfo) (d : List (Str × JValue))
    (e : Int)
    (hat : get_info_thats_in_at py access_token = some info)
    (hbody : info.body = .obj d)
    (hexp : alookup d (strL "exp") = some (.num e))
    (hpast : e < now) :
    get_all_info_by_at py (.ok ui) (.ok iv) now access_token =
      .error (.unauthorized .tokenExpired) := by
  have htl : get_timeleft (some info) now = some (e - now) := by
    simp [get_timeleft, hbody, hexp]
  have hneg : e - now < 0 := by omega
  simp [get_all_info_by_at, hat, htl, hneg]

/-- Witness for C6: a concrete token decoding to body exp = 0, checked at
now = 10 with successful fetches, is rejected as expired. -/
theorem expired_token_unauthorized_witness :
    get_all_info_by_at exPyExpZero (.ok (.obj [(strL "sub", .str (strL "me"))]))
        (.ok .null) 10 exTok = .error (.unauthorized .tokenExpired) :=
  expired_token_unauthorized exPyExpZero (.obj [(strL "sub", .str (strL "me"))])
    .null 10 exTok
    ⟨.obj [(strL "exp", .num 0)], .obj [(strL "exp", .num 0)], strL "s"⟩
    [(strL "exp", .num 0)] 0 rfl rfl rfl (by decide)

/-! ## The requirement engine -/

theorem eval_list_map (env : EnvCtx) (u : UserInfos) (rs : List Requirement) :
    eval_list env u rs = rs.map (is_satisfied_by env u) := by
  induction rs with
  | nil => rfl
  | cons r rest ih => simp [eval_list, ih]

theorem nof_fold (results : List CheckResult) (acc : List Message × Nat) :
    results.foldl
      (fun acc r =>
        if !r.is_satisfied then (acc.1 ++ [r.message], acc.2) else (acc.1, acc.2 + 1))
      acc =
    (acc.1 ++ (results.filter (fun r => !r.is_satisfied)).map (fun r => r.message),
     acc.2 + results.countP (fun r => r.is_satisfied)) := by
  induction results generalizing acc with
  | nil => simp
  | cons r rest ih =>
    by_cases h : r.is_satisfied
    · have hstep :
          (if !r.is_satisfied then ((acc.1 ++ [r.message], acc.2) : List Message × Nat)
           else (acc.1, acc.2 + 1)) = (acc.1, acc.2 + 1) := by simp [h]
      rw [List.foldl_cons, hstep, ih]
      congr 1
      · simp [List.filter_cons, h]
      · rw [List.countP_cons]
        simp [h]
        omega
    · have hstep :
          (if !r.is_satisfied then ((acc.1 ++ [r.message], acc.2) : List Message × Nat)
           else (acc.1, acc.2 + 1)) = (acc.1 ++ [r.message], acc.2) := by simp [h]
      rw [List.foldl_cons, hstep, ih]
      congr 1
      · simp [List.filter_cons, h]
      · rw [List.countP_cons]
        simp [h]

/-- Claim C7: N_Of(n) is satisfied exactly when at least n children are
satisfied; all children contribute (their results are the full map over the
children), and the failure diagnostic carries the messages of exactly the
failing children, in order. -/
theorem n_of_is_satisfied_spec (env : EnvCtx) (u : UserInfos) (n : Int)
    (rs : List Requirement) :
    is_satisfied_by env u (.nOf n rs) =
      (let results := rs.map (is_satisfied_by env u)
       let cnt := results.countP (fun r => r.is_satisfied)
       if n ≤ (cnt : Int) then ⟨true, .nOfSatisfied cnt n⟩
       else ⟨false, .nOfUnsatisfied cnt n
         ((results.filter (fun r => !r.is_satisfied)).map (fun r => r.message))⟩) := by
  simp only [is_satisfied_by, eval_list_map, nof_fold]
  simp

theorem flag_fold (results : List CheckResult) (acc : Bool × List Message) :
    results.foldl
      (fun acc r =>
        if !r.is_satisfied then (false, acc.2 ++ [r.message]) else acc)
      acc =
    (acc.1 && results.all (fun r => r.is_satisfied),
     acc.2 ++ (results.filter (fun r => !r.is_satisfied)).map (fun r => r.message)) := by
  induction results generalizing acc with
  | nil => simp
  | cons r rest ih =>
    by_cases h : r.is_satisfied
    · have hstep :
          (if !r.is_satisfied then ((false, acc.2 ++ [r.message]) : Bool × List Message)
           else acc) = acc := by simp [h]
      rw [List.foldl_cons, hstep, ih]
      congr 1
      · simp [List.all_cons, h]
      · simp [List.filter_cons, h]
    · have hstep :
          (if !r.is_satisfied then ((false, acc.2 ++ [r.message]) : Bool × List Message)
           else acc) = (false, acc.2 ++ [r.message]) := by simp [h]
      rw [List.foldl_cons, hstep, ih]
      congr 1
      · simp [List.all_cons, h]
      · simp [List.filter_cons, h]

/-- Claim C2 (the code side): the OneOf node of the source is NOT satisfied
by a child list in which one child is satisfied and another is not, although
at least one child is satisfied — its loop clears the satisfied flag on any
failing child, so it behaves as AllOf, contradicting its own docstring. -/
theorem oneOf_code_bug_eval :
    (is_satisfied_by exEnvNone exUserEmpty
        (.oneOf [.satisfied, .unsatisfiable])).is_satisfied = false
    ∧ (eval_list exEnvNone exUserEmpty [.satisfied, .unsatisfiable]).any
        (fun r => r.is_satisfied) = true :=
  ⟨rfl, rfl⟩

theorem first_match_isSome (use_parse : Bool) (value0 : JValue)
    (pparse : JValue → JValue) (pmatches : JValue → JValue → Bool)
    (xs : List JValue) :
    (hasClaim_first_match use_parse value0 pparse pmatches xs).isSome =
      xs.any (fun val => hcMatches use_parse pmatches value0 (hcParse use_parse pparse val)) := by
  induction xs with
  | nil => rfl
  | cons x rest ih =>
    by_cases h : hcMatches use_parse pmatches value0 (hcParse use_parse pparse x)
    · simp [hasClaim_first_match, h]
    · simp [hasClaim_first_match, h, ih]

/-- Claim C8: when the override environment variable decodes to a JSON list,
every HasClaim-family check evaluates its stored required value against that
list instead of the claim lookup on the user infos: the result does not
depend on the user infos at all, and the check is satisfied exactly when
some entry of the override list matches. -/
theorem override_replaces_claim_lookup (env : EnvCtx) (u : UserInfos)
    (use_parse : Bool) (value0 : JValue) (pparse : JValue → JValue)
    (pmatches : JValue → JValue → Bool) (claim : Str) (env_val : Str)
    (xs : List JValue)
    (hget : env.getenv (strL "DISABLE_AUTHENTICATION_AND_ASSUME_ENTITLEMENTS") =
      some env_val)
    (hparse : env.jloads env_val = .ok (.list xs)) :
    (hasClaim_eval env u use_parse value0 pparse pmatches claim).is_satisfied =
      xs.any (fun val => hcMatches use_parse pmatches value0 (hcParse use_parse pparse val)) := by
  rw [← first_match_isSome use_parse value0 pparse pmatches xs]
  simp only [hasClaim_eval, check_environment_for_override, hget, hparse]
  cases hm : hasClaim_first_match use_parse value0 pparse pmatches xs with
  | none => simp [isNone, hm]
  | some mv => simp [isNone, hm]

/-- Witness for C8: with the override variable set to ["ns:group:x"], a
HasClaim for the required value "ns:group:x" succeeds on a user with no
identity information at all. -/
theorem override_replaces_claim_lookup_witness :
    (hasClaim_eval exEnvOverride exUserEmpty true (.str (strL "ns:group:x"))
        (fun r => r) (fun a b => a == b) (strL "eduperson_entitlement")).is_satisfied
      = true := by
  have h := override_replaces_claim_lookup exEnvOverride exUserEmpty true
    (.str (strL "ns:group:x")) (fun r => r) (fun a b => a == b)
    (strL "eduperson_entitlement") (strL "[\"ns:group:x\"]")
    [.str (strL "ns:group:x")] rfl rfl
  exact h.trans rfl

/-- Claim C3 (the code side): with mode one, the translation to OneOf over
one HasClaim leaf per required value is unsatisfied although the required
value a matches the available entries ["a"]; and with mode all, the pair
counting of BaseFlaat._required_auth_func succeeds on required values
[r1, r2] against the available entries [r1, r1] although r2 matches no
entry. -/
theorem claim_match_modes_code_bug_eval :
    (match get_claim_requirement (fun r => r) (fun a b => a == b)
        (.list [.str (strL "a"), .str (strL "b")]) (strL "grp") .one with
     | .ok r => (is_satisfied_by exEnvNone exUserGrpA r).is_satisfied
     | .error _ => true) = false
    ∧ required_auth_core (fun a b => a == b) .all
        [.str (strL "r1"), .str (strL "r2")]
        [.str (strL "r1"), .str (strL "r1")] = .ok () :=
  ⟨rfl, rfl⟩

/-! ## The AARC matcher -/

theorem splitChar_ne_nil (c : Char) (s : Str) : splitChar c s ≠ [] := by
  induction s with
  | nil => simp [splitChar]
  | cons a rest ih =>
    by_cases h : a = c
    · simp [splitChar, h]
    · simp only [splitChar, if_neg h]
      cases hsp : splitChar c rest with
      | nil => simp
      | cons x t => simp

theorem joinChar_splitChar (c : Char) (s : Str) : joinChar c (splitChar c s) = s := by
  induction s with
  | nil => rfl
  | cons a rest ih =>
    by_cases h : a = c
    · simp only [splitChar, if_pos h]
      cases hsp : splitChar c rest with
      | nil => exact absurd hsp (splitChar_ne_nil c rest)
      | cons x t =>
        rw [hsp] at ih
        simp [joinChar, ih, h]
    · simp only [splitChar, if_neg h]
      cases hsp : splitChar c rest with
      | nil => exact absurd hsp (splitChar_ne_nil c rest)
      | cons x t =>
        rw [hsp] at ih
        cases t with
        | nil => simp only [joinChar] at ih ⊢; rw [ih]
        | cons y t2 => simp only [joinChar] at ih ⊢; simp [ih]

theorem splitChar_inj (c : Char) (s1 s2 : Str) (h : splitChar c s1 = splitChar c s2) :
    s1 = s2 := by
  have h2 := congrArg (joinChar c) h
  rwa [joinChar_splitChar, joinChar_splitChar] at h2

theorem tree_match_loop_isPrefixOf (rs bs : List Str) :
    tree_match_loop rs bs = rs.isPrefixOf bs := by
  induction rs generalizing bs with
  | nil => cases bs <;> rfl
  | cons r rrest ih =>
    cases bs with
    | nil => rfl
    | cons a arest =>
      by_cases h : a = r
      · have hba : (r == a) = true := by simp [h]
        simp [tree_match_loop, List.isPrefixOf, h, hba, ih]
      · have hba : (r == a) = false := by
          simp only [beq_eq_false_iff_ne, ne_eq]
          exact fun hh => h hh.symm
        simp [tree_match_loop, List.isPrefixOf, h, hba]

theorem isPrefixOf_self_eq_true (l : List Str) : l.isPrefixOf l = true := by
  induction l with
  | nil => rfl
  | cons a rest ih => simp [List.isPrefixOf, ih]

theorem aarc_core_eq_spec (rns rgr ans agr : Str) :
    aarc_core rns rgr ans agr = spec_aarc_core rns rgr ans agr := by
  simp only [aarc_core, spec_aarc_core]
  rcases hra : aarc_g002_split_roles rgr with ⟨rg, rrole⟩
  rcases haa : aarc_g002_split_roles agr with ⟨ag, arole⟩
  simp only [hra, haa]
  by_cases hns : ans = rns
  · subst hns
    simp only [ne_eq, not_true_eq_false, if_false]
    by_cases hgr : agr = rgr
    · subst hgr
      simp
    · have hgr2 : ¬rgr = agr := fun hh => hgr hh.symm
      rw [if_neg hgr, if_neg hgr2]
      by_cases hg : ag = rg
      · subst hg
        rw [if_pos rfl]
        simp only [isPrefixOf_self_eq_true, not_true_eq_false, if_false, if_pos rfl]
        cases rrole with
        | none => rfl
        | some rr =>
          cases arole with
          | none => simp
          | some ar => by_cases h : ar = rr <;> simp [h]
      · have hpath : ¬(splitChar ':' rg = splitChar ':' ag) :=
          fun hh => hg (splitChar_inj ':' ag rg hh.symm)
        rw [if_neg hg, tree_match_loop_isPrefixOf]
        cases hpre : (splitChar ':' rg).isPrefixOf (splitChar ':' ag) <;>
          simp [hpre, hpath]
  · have hns2 : ¬rns = ans := fun hh => hns hh.symm
    simp [hns, hns2]

/-- Claim C4: the AARC-G002 matcher of the source agrees, on every pair of
entitlement strings, with the matching relation as the spec words it
(namespace equality, then equal group+role strings or an ancestor-or-equal
group path, with the role compared only at full depth); unparsable
entitlements make both sides fail. -/
theorem aarc_g002_matcher_matches_spec (required_group actual_group : Str) :
    (aarc_g002_matcher required_group actual_group).toOption =
      spec_aarc_matches required_group actual_group := by
  unfold aarc_g002_matcher spec_aarc_matches
  cases ha : aarc_g002_split actual_group with
  | error e =>
    cases hr : aarc_g002_split required_group with
    | error e2 => simp [Except.toOption]
    | ok vr => simp [Except.toOption]
  | ok va =>
    obtain ⟨ans, agr, aauth⟩ := va
    cases hr : aarc_g002_split required_group with
    | error e2 => simp [Except.toOption]
    | ok vr =>
      obtain ⟨rns, rgr, rauth⟩ := vr
      simp [Except.toOption, aarc_core_eq_spec]

/-! ## The issuer trust check -/

/-- Claim C1, amended: for every access token not already in the
token-to-issuer cache whose decoded body carries a string iss claim that,
after trailing-slash normalization, is neither among the (likewise
normalized) entries of the configured trusted-OP list nor equal to the
configured single-issuer value (which defaults to the empty string), issuer
resolution raises FlaatForbidden at once, for every behaviour of the
network; an issuer written with and without a trailing slash is the same
issuer for this check, since only normalized forms are compared. -/
theorem trust_check_rejects_untrusted_issuer {γ : Type} (ops : List Str)
    (cfg : FlaatConfig) (st : FlaatState γ) (net : Network γ) (py : Py)
    (access_token s : Str)
    (hcfg : cfg.trusted_op_list = ops.map (pyRstrip '/'))
    (hcache : alookup st.accesstoken_issuer_cache access_token = none)
    (hiss : get_issuer_from_accesstoken_info py access_token = .ok (.str s))
    (hops : ∀ o ∈ ops, pyRstrip '/' s ≠ pyRstrip '/' o)
    (hsingle : pyRstrip '/' s ≠ cfg.iss) :
    find_issuer_config_everywhere cfg st net py access_token =
      .error (.forbidden (.issuerNotTrusted s)) := by
  have hnotmem : pyRstrip '/' s ∉
      ((if 0 < cfg.trusted_op_list.length then cfg.trusted_op_list else [])
        ++ [cfg.iss]) := by
    intro hmem
    rcases List.mem_append.1 hmem with hin | hin
    · rcases (by split at hin <;> simp_all :
        pyRstrip '/' s ∈ cfg.trusted_op_list) with hin2
      rw [hcfg] at hin2
      rcases List.mem_map.1 hin2 with ⟨o, ho, hoeq⟩
      exact hops o ho hoeq.symm
    · rw [List.mem_singleton] at hin
      exact hsingle hin
  simp only [find_issuer_config_everywhere, hcache, hiss]
  rw [if_neg hnotmem]

/-- Counterexample to C1 as stated: with trusted list ["https://op.example"]
and a fresh token embedding the untrusted issuer https://evil.example/,
resolution does fail at once even though the network would resolve every
issuer, but the failure is FlaatForbidden, not an Unauthenticated-kind
error. -/
theorem trust_check_error_kind_counterexample :
    find_issuer_config_everywhere exCfgTrust exStEmpty exNetReachable
        exPyEvilIss exTok =
      .error (.forbidden (.issuerNotTrusted (strL "https://evil.example/")))
    ∧ failsUnauthenticated (find_issuer_config_everywhere exCfgTrust exStEmpty
        exNetReachable exPyEvilIss exTok) = false :=
  ⟨rfl, rfl⟩

/-- Witness for the amended C1, instantiating the theorem at the concrete
untrusted issuer: the normalized embedded issuer differs from every
normalized trusted entry, and resolution raises FlaatForbidden. -/
theorem trust_check_rejects_untrusted_issuer_witness :
    (∀ o ∈ [strL "https://op.example/"],
      pyRstrip '/' (strL "https://evil.example/") ≠ pyRstrip '/' o)
    ∧ find_issuer_config_everywhere exCfgTrust exStEmpty exNetReachable
        exPyEvilIss exTok =
      .error (.forbidden (.issuerNotTrusted (strL "https://evil.example/"))) :=
  ⟨by decide,
   trust_check_rejects_untrusted_issuer [strL "https://op.example/"]
     exCfgTrust exStEmpty exNetReachable exPyEvilIss exTok
     (strL "https://evil.example/") (by decide) rfl rfl (by decide) (by decide)⟩
